import Mathlib

/-!
Verification development for the bokat.se scraping client
(repository `bokat_se_hass`, files `custom_components/bokat_se/__init__.py`,
`custom_components/bokat_se/bokatapi.py`,
`custom_components/bokat_se_lib/bokatapi.py`).

The Python code queries HTML through regular expressions and BeautifulSoup.
The embedding models a page as the structured data those queries yield
(row cell texts, link hrefs, header texts, regex match tuples), and
translates the decision logic of the source faithfully over that data.
Substring tests (Python `in`), `str.strip`, `str.lower`, `str.split`,
and the concrete digit-scanning regexes of the source are implemented
directly over character lists.
-/

/-- Holds when `needle` occurs at the head of `hay` (character lists). -/
def listStarts : List Char → List Char → Bool
  | [], _ => true
  | _ :: _, [] => false
  | a :: as, b :: bs => a == b && listStarts as bs

/-- Python `needle in hay` on strings, over character lists:
true iff `needle` occurs contiguously somewhere in `hay`. -/
def listHasSub : List Char → List Char → Bool
  | [], needle => needle.isEmpty
  | c :: t, needle => listStarts needle (c :: t) || listHasSub t needle

/-- Python `needle in hay` for strings. -/
def strHasSub (hay needle : String) : Bool :=
  listHasSub hay.toList needle.toList

/-- Python `s.startswith(pre)`. -/
def strStarts (s pre : String) : Bool :=
  listStarts pre.toList s.toList

/-- Python `str.strip()` on a character list (ASCII whitespace; the pages
are Latin text and the stripped characters that occur are spaces, tabs,
carriage returns and newlines). -/
def listStrip (l : List Char) : List Char :=
  ((l.dropWhile Char.isWhitespace).reverse.dropWhile Char.isWhitespace).reverse

/-- Python `str.strip()`. -/
def strStrip (s : String) : String :=
  String.mk (listStrip s.toList)

/-- Python `str.lower()`. -/
def strLower (s : String) : String :=
  String.mk (s.toList.map Char.toLower)

/-- Value of a decimal digit string (the regex groups below only ever
capture nonempty runs of `0`-`9`). -/
def digitsToNat (ds : List Char) : Nat :=
  ds.foldl (fun n c => n * 10 + (c.toNat - 48)) 0

/-- The Python regex search `\+\s*(\d+)` over a string: scan left to right
for a `+` followed by optional whitespace and at least one digit; return
the digit run, as a number.  `None` when no position matches. -/
def findGuestsL : List Char → Option Nat
  | [] => none
  | '+' :: rest =>
      let r2 := rest.dropWhile Char.isWhitespace
      let ds := r2.takeWhile Char.isDigit
      if ds.isEmpty then findGuestsL rest else some (digitsToNat ds)
  | _ :: rest => findGuestsL rest

/-- Split a character list at the first occurrence of (nonempty) `sep`,
returning the parts before and after; `none` when `sep` does not occur.
Implements Python `s.split(sep, 1)` (which yields two parts exactly when
`sep` occurs). -/
def splitFirst (sep : List Char) : List Char → Option (List Char × List Char)
  | [] => none
  | c :: t =>
      if listStarts sep (c :: t) then some ([], (c :: t).drop sep.length)
      else
        match splitFirst sep t with
        | some (pre, post) => some (c :: pre, post)
        | none => none

/-- Python dict assignment `d[k] = v` on an insertion-ordered association
list: overwrite in place when the key exists, append otherwise. -/
def dictSet : List (String × String) → String → String → List (String × String)
  | [], k, v => [(k, v)]
  | (k2, v2) :: rest, k, v =>
      if k2 == k then (k, v) :: rest else (k2, v2) :: dictSet rest k v

/-- The Python regex search `<key>(\d+)` for a literal `key` (used with
`eventId=` and `userId=`): scan left to right for an occurrence of `key`
followed by at least one digit and return the (greedy) digit run. -/
def findNumAfter (key : List Char) : List Char → Option String
  | [] => none
  | c :: t =>
      if listStarts key (c :: t) then
        let ds := ((c :: t).drop key.length).takeWhile Char.isDigit
        if ds.isEmpty then findNumAfter key t else some (String.mk ds)
      else findNumAfter key t

/-- The Python regex search `eventId=(\d+)&userId=(\d+)`
(`BokatApiClient.submit_response`): the two literals and digit runs must
be contiguous; the digit runs are greedy, which is exact here because a
digit run can only stop at a non-digit. -/
def findEventUser : List Char → Option (String × String)
  | [] => none
  | c :: t =>
      (if listStarts ("eventId=".toList) (c :: t) then
        let rest := (c :: t).drop 8
        let d1 := rest.takeWhile Char.isDigit
        if d1.isEmpty then none
        else
          let rest2 := rest.drop d1.length
          if listStarts ("&userId=".toList) rest2 then
            let d2 := (rest2.drop 8).takeWhile Char.isDigit
            if d2.isEmpty then none
            else some (String.mk d1, String.mk d2)
          else none
      else none).orElse (fun _ => findEventUser t)

/-- First segment before an occurrence of `closeTag`; `none` when
`closeTag` does not occur.  Helper for the lazy regex captures below. -/
def takeUntilClose (closeTag : List Char) : List Char → Option (List Char)
  | [] => none
  | c :: t =>
      if listStarts closeTag (c :: t) then some []
      else
        match takeUntilClose closeTag t with
        | some seg => some (c :: seg)
        | none => none

/-- The Python regex search `<openTag>(.*?)<closeTag>` (`trimWs = false`)
or `<openTag>\s*(.*?)\s*<closeTag>` (`trimWs = true`), without `re.DOTALL`
so the lazy dot cannot cross a newline.  At each occurrence of `openTag`
the nearest following `closeTag` fixes the candidate segment; the match
succeeds there exactly when the segment (whitespace-trimmed in the
`trimWs` form) contains no newline — and once a newline separates
non-whitespace text, no later close can succeed either, so on failure the
scan resumes at the next occurrence of `openTag`.  The returned segment
agrees with the regex capture group up to leading/trailing whitespace,
which every caller in the source strips away. -/
def lazyCapture (openTag closeTag : List Char) (trimWs : Bool) :
    List Char → Option (List Char)
  | [] => none
  | c :: t =>
      if listStarts openTag (c :: t) then
        match takeUntilClose closeTag ((c :: t).drop openTag.length) with
        | some seg =>
            if '\n' ∈ (if trimWs then listStrip seg else seg) then
              lazyCapture openTag closeTag trimWs t
            else some seg
        | none => lazyCapture openTag closeTag trimWs t
      else lazyCapture openTag closeTag trimWs t

namespace Client

/-!
Embedding of `BokatApiClient` in `custom_components/bokat_se/__init__.py`.
-/

/-- A parsed roster participant (the dicts appended to `participants` in
`_parse_activity_details` / `_parse_activity_details_with_soup`). -/
structure Participant where
  name : String
  status : String
  comment : String
  timestamp : String
  guests : Nat
deriving Repr, DecidableEq

/-- The `details` dict built by the two detail-parsing functions. -/
structure ActivityDetails where
  name : String
  status : String
  url : String
  participants : List Participant
  total_participants : Nat
  attending_count : Nat
  not_attending_count : Nat
  no_response_count : Nat
  answer_url : String
deriving Repr, DecidableEq

/-- The initial `details` dict of both detail parsers. -/
def emptyDetails (activity_url : String) : ActivityDetails :=
  { name := "Unknown", status := "Unknown", url := activity_url,
    participants := [], total_participants := 0, attending_count := 0,
    not_attending_count := 0, no_response_count := 0, answer_url := "" }

/-- One roster-row classification step, shared verbatim by
`_parse_activity_details` and `_parse_activity_details_with_soup`
(the Python code duplicates this `if`-chain literally in both functions):
status text containing `Kommer` counts as attending (with a `\+\s*(\d+)`
guest capture), then `Kommer inte` as not attending, then
`Endast kommentar` as comment-only (counted as not attending), anything
else as no response.  The accumulator is
`(participants, attending, not_attending, no_response)`. -/
def detailRowClassify (acc : List Participant × Nat × Nat × Nat)
    (name status_text comment timestamp : String) :
    List Participant × Nat × Nat × Nat :=
  let (ps, att, natt, nores) := acc
  if strHasSub status_text "Kommer" then
    let guests := (findGuestsL status_text.toList).getD 0
    (ps ++ [⟨name, "yes", comment, timestamp, guests⟩], att + 1, natt, nores)
  else if strHasSub status_text "Kommer inte" then
    (ps ++ [⟨name, "no", comment, timestamp, 0⟩], att, natt + 1, nores)
  else if strHasSub status_text "Endast kommentar" then
    (ps ++ [⟨name, "comment_only", comment, timestamp, 0⟩], att, natt + 1, nores)
  else
    (ps ++ [⟨name, "no_response", comment, timestamp, 0⟩], att, natt, nores + 1)

/-- Input to `_parse_activity_details`: the html string abstracted into the
results of the four regex queries the function performs on it.
`rowMatches` is the result of `re.findall` with the participant pattern
(name, status, comment, timestamp capture groups, raw). -/
structure DetailPage where
  h1Text : Option String
  statusDivText : Option String
  answerHref : Option String
  rowMatches : List (String × String × String × String)
deriving Repr

/-- One iteration of the participant loop of `_parse_activity_details`:
all four captures are stripped, then classified. -/
def detailRowStep (acc : List Participant × Nat × Nat × Nat)
    (m : String × String × String × String) :
    List Participant × Nat × Nat × Nat :=
  detailRowClassify acc (strStrip m.1) (strStrip m.2.1)
    (strStrip m.2.2.1) (strStrip m.2.2.2)

/-- The header-field extraction of `_parse_activity_details` (name from the
`<h1>` capture, status from the `class="status"` div capture, answer url
from the `Svara` link href, prefixed with the base url when not absolute). -/
def regexHeaderApply (base : ActivityDetails) (p : DetailPage) :
    ActivityDetails :=
  let b1 := match p.h1Text with
    | some t => { base with name := strStrip t }
    | none => base
  let b2 := match p.statusDivText with
    | some t => { b1 with status := strStrip t }
    | none => b1
  match p.answerHref with
  | some href =>
      { b2 with answer_url :=
          if strStarts href "http" then href
          else "https://www.bokat.se/" ++ href }
  | none => b2

/-- `BokatApiClient._parse_activity_details` (`__init__.py`):
header fields, then the participant loop, then the counts are written
from the loop totals and `total_participants` from `len(participants)`. -/
def parse_activity_details (p : DetailPage) (activity_url : String) :
    ActivityDetails :=
  let base := regexHeaderApply (emptyDetails activity_url) p
  let r := p.rowMatches.foldl detailRowStep ([], 0, 0, 0)
  { base with
    participants := r.1
    total_participants := r.1.length
    attending_count := r.2.1
    not_attending_count := r.2.2.1
    no_response_count := r.2.2.2 }

/-- Input to `_parse_activity_details_with_soup`: the soup abstracted into
the results of the BeautifulSoup queries the function performs.
`answerHref` is the href of the `Svara` link when that link exists and
carries an href attribute.  `tables` lists, per `<table>`, per `<tr>` row,
the raw `<td>` cell texts in order. -/
structure SoupPage where
  h1Text : Option String
  titleText : Option String
  statusDivText : Option String
  answerHref : Option String
  tables : List (List (List String))
deriving Repr

/-- One row of the soup participant loop: rows with fewer than three cells
are skipped, cell texts are stripped, the timestamp cell is optional, and
header rows (name `namn`/`name` or status `status`, lowercased) are
skipped; remaining rows are classified as in the regex parser. -/
def soupRowStep (acc : List Participant × Nat × Nat × Nat)
    (cells : List String) : List Participant × Nat × Nat × Nat :=
  match cells with
  | nameC :: statusC :: commentC :: rest =>
      let name := strStrip nameC
      let status_text := strStrip statusC
      let comment := strStrip commentC
      let timestamp := ((rest[0]?).map strStrip).getD ""
      if strLower name == "namn" || strLower name == "name"
          || strLower status_text == "status" then acc
      else detailRowClassify acc name status_text comment timestamp
  | _ => acc

/-- The header-field extraction of `_parse_activity_details_with_soup`:
name from `<h1>` or else from `<title>` (with a leading
`"<prefix> - "` removed when a `" - "` separator occurs), status from the
`class="status"` div, answer url from the `Svara` link (skipped when the
harvested href is empty, matching the Python truthiness test). -/
def soupHeaderApply (base : ActivityDetails) (p : SoupPage) :
    ActivityDetails :=
  let b1 := match p.h1Text with
    | some t => { base with name := strStrip t }
    | none =>
        match p.titleText with
        | some tt0 =>
            let tt := strStrip tt0
            match splitFirst (" - ".toList) tt.toList with
            | some (_, post) => { base with name := String.mk post }
            | none => { base with name := tt }
        | none => base
  let b2 := match p.statusDivText with
    | some t => { b1 with status := strStrip t }
    | none => b1
  match p.answerHref with
  | some href =>
      if href == "" then b2
      else
        { b2 with answer_url :=
            if strStarts href "http" then href
            else "https://www.bokat.se/" ++ href }
  | none => b2

/-- `BokatApiClient._parse_activity_details_with_soup` (`__init__.py`):
starts from `existing_details or <defaults>`, applies the header fields,
walks all tables and rows, and overwrites participants and all four
counts only when the walk found at least one participant. -/
def parse_activity_details_with_soup (p : SoupPage) (activity_url : String)
    (existing : Option ActivityDetails) : ActivityDetails :=
  let base := soupHeaderApply (existing.getD (emptyDetails activity_url)) p
  let r := p.tables.foldl (fun a rows => rows.foldl soupRowStep a) ([], 0, 0, 0)
  if r.1.isEmpty then base
  else
    { base with
      participants := r.1
      total_participants := r.1.length
      attending_count := r.2.1
      not_attending_count := r.2.2.1
      no_response_count := r.2.2.2 }

/-- The count-reconciliation invariant of the spec for an ActivityDetail. -/
def countsOk (d : ActivityDetails) : Prop :=
  d.attending_count + d.not_attending_count + d.no_response_count
    = d.total_participants ∧
  d.total_participants = d.participants.length

/-- The `.get(attendance, "yes")` lookup mapping the service attendance
constant to the Bokat.se value in `submit_response` (the three constants
are the literals `yes`, `no`, `comment_only`; anything else defaults to
`yes`). -/
def attendance_value (attendance : String) : String :=
  if attendance == "yes" then "yes"
  else if attendance == "no" then "no"
  else if attendance == "comment_only" then "comment_only"
  else "yes"

/-- The `form_data` dict built by `submit_response` before hidden-field
harvesting.  The `guests` argument is rendered only for
`attendance == yes`; every other attendance posts the literal `"0"`. -/
def build_form_data (event_id user_id attendance : String) (guests : Int)
    (comment : String) : List (String × String) :=
  [("eventId", event_id), ("userId", user_id),
   ("attendance", attendance_value attendance),
   ("guests", if attendance == "yes" then toString guests else "0"),
   ("comment", comment), ("submit", "Svara")]

/-- The hidden-field harvesting loop of `submit_response`: each hidden
input whose name and value are truthy and whose name is not already a
`form_data` key is appended.  A missing name or value attribute is
modelled as the empty string (both are falsy in the source test). -/
def merge_hidden (fd : List (String × String))
    (hidden : List (String × String)) : List (String × String) :=
  hidden.foldl
    (fun fd nv =>
      if nv.1 ≠ "" ∧ nv.2 ≠ "" ∧ (fd.lookup nv.1).isNone then fd ++ [nv]
      else fd) fd

/-- The response interpretation at the end of `submit_response`
(`__init__.py` lines 1276-1294): 302 is success; 200 is success only with
a success phrase, and failure both on a login marker and on an ambiguous
body; any other status is failure. -/
def interpret_submit_response (status : Nat) (body : String) : Bool :=
  if status == 302 then true
  else if status == 200 then
    if strHasSub body "Tack för ditt svar"
        || strHasSub body "Thank you for your response" then true
    else if strHasSub body "Logga in" || strHasSub body "login.jsp" then false
    else false
  else false

/-- Abstraction of one call to `BokatApiClient.login()` as observed by
`submit_response`: the boolean it returns, the cookie jar it leaves in
`self._cookies`, and the HTTP requests it issues.  The source `login()`
unconditionally starts with a POST to the login endpoint, so every
reachable behavior has a nonempty request list. -/
structure LoginBehavior where
  result : Bool
  cookiesAfter : List (String × String)
  requests : List String
deriving Repr, DecidableEq

/-- How `submit_response` leaves its prologue (`__init__.py` lines
1188-1203): plain `False`, the `ConfigEntryAuthFailed` exception, or
continuation into the HTTP submission with the extracted ids. -/
inductive SubmitStep where
  | returnedFalse
  | raisedAuthFailed
  | proceedToHttp (event_id user_id : String)
deriving Repr, DecidableEq

/-- The prologue of `submit_response` up to the first activity-specific
HTTP request: when no cookies are held, `login()` runs first (issuing its
requests and replacing the cookie jar) and a failed login raises
`ConfigEntryAuthFailed`; only then is the activity url checked against
`eventId=(\d+)&userId=(\d+)`, returning `False` on no match.  The result
is the control outcome, the HTTP requests issued so far, and the cookie
state afterwards. -/
def submit_response_prologue (lb : LoginBehavior)
    (cookies : List (String × String)) (activity_url : String) :
    SubmitStep × List String × List (String × String) :=
  if cookies.isEmpty then
    if lb.result then
      match findEventUser activity_url.toList with
      | some (e, u) => (.proceedToHttp e u, lb.requests, lb.cookiesAfter)
      | none => (.returnedFalse, lb.requests, lb.cookiesAfter)
    else (.raisedAuthFailed, lb.requests, lb.cookiesAfter)
  else
    match findEventUser activity_url.toList with
    | some (e, u) => (.proceedToHttp e u, [], cookies)
    | none => (.returnedFalse, [], cookies)

end Client

namespace BokatLib

/-!
Embedding of `BokatAPI` in `custom_components/bokat_se_lib/bokatapi.py`.
-/

/-- One `<tr>` row of the listing page as the first pass of
`_parse_activities` sees it.  For each of the three label searches
(`Grupp:`, `Tid:`, `Aktivitet:`): `none` means no `<td>` whose text
contains the label exists in the row, `some none` means the label cell
exists but has no following sibling `<td>`, and `some (some s)` means the
label cell is followed by a sibling `<td>` with raw text `s`. -/
structure LibRow where
  gruppVal : Option (Option String)
  tidVal : Option (Option String)
  aktVal : Option (Option String)
deriving Repr, DecidableEq

/-- The mutable state of the first pass of `_parse_activities`:
the running `current_group` / `current_time` (Python `None` initially,
later possibly an empty string, which is falsy at use sites), the
deduplicated `activity_names` in discovery order, and the name-keyed
`activity_groups` / `activity_times` dicts. -/
structure FPState where
  curGroup : Option String
  curTime : Option String
  names : List String
  groups : List (String × String)
  times : List (String × String)
deriving Repr, DecidableEq

/-- One row of the first pass: the group and time labels update the
running values (stripped); an activity label with a nonempty, not yet
seen (stripped) name appends it to `activity_names` and records the
running group and time under that name when they are truthy. -/
def fpStep (s : FPState) (row : LibRow) : FPState :=
  let s1 := match row.gruppVal with
    | some (some txt) => { s with curGroup := some (strStrip txt) }
    | _ => s
  let s2 := match row.tidVal with
    | some (some txt) => { s1 with curTime := some (strStrip txt) }
    | _ => s1
  match row.aktVal with
  | some (some txt) =>
      let n := strStrip txt
      if n ≠ "" ∧ n ∉ s2.names then
        { s2 with
          names := s2.names ++ [n]
          groups := match s2.curGroup with
            | some g => if g ≠ "" then dictSet s2.groups n g else s2.groups
            | none => s2.groups
          times := match s2.curTime with
            | some t => if t ≠ "" then dictSet s2.times n t else s2.times
            | none => s2.times }
      else s2
  | _ => s2

/-- One entry of `stat_links`: the normalized url and the two optional id
captures. -/
structure StatLink where
  url : String
  eventId : Option String
  userId : Option String
deriving Repr, DecidableEq

/-- Url normalization of the second pass: absolute urls kept, a leading
slash appended to the base with its trailing slash stripped, anything
else appended to the base. -/
def fixHref (href : String) : String :=
  if strStarts href "http" then href
  else if strStarts href "/" then "https://www.bokat.se" ++ href
  else "https://www.bokat.se/" ++ href

/-- The second pass of `_parse_activities` for one harvested href:
normalize, then capture `eventId=(\d+)` and `userId=(\d+)`. -/
def parseStatLink (href : String) : StatLink :=
  let u := fixHref href
  { url := u
    eventId := findNumAfter ("eventId=".toList) u.toList
    userId := findNumAfter ("userId=".toList) u.toList }

/-- An activity dict built by `_parse_activities`; the `time` key is only
present when the name is a key of `activity_times`. -/
structure LibActivity where
  name : String
  group : String
  url : String
  eventId : Option String
  userId : Option String
  time : Option String
deriving Repr, DecidableEq

/-- The matching loop of `_parse_activities`: the i-th activity name is
paired with the i-th link (positional zip, trailing unmatched entries of
either list dropped), group defaulting to `Unknown Group`. -/
def matchActs : List String → List StatLink → List (String × String) →
    List (String × String) → List LibActivity
  | [], _, _, _ => []
  | _ :: _, [], _, _ => []
  | n :: ns, l :: ls, groups, times =>
      { name := n
        group := (groups.lookup n).getD "Unknown Group"
        url := l.url
        eventId := l.eventId
        userId := l.userId
        time := times.lookup n } :: matchActs ns ls groups times

/-- `BokatAPI._parse_activities` (`bokat_se_lib/bokatapi.py`): first pass
over the rows, second pass over the harvested hrefs, then the positional
match. -/
def parse_activities (rows : List LibRow) (hrefs : List String) :
    List LibActivity :=
  let s := rows.foldl fpStep ⟨none, none, [], [], []⟩
  matchActs s.names (hrefs.map parseStatLink) s.groups s.times

/-- Modelled from the spec wording of the listing extraction: one record
per activity label block, in document order, carrying the block name and
the nearest preceding nonempty group and time label values (`none` when
there is none).  This is the specification-side description that
`parse_activities` is compared against. -/
def specBlocks : Option String → Option String → List LibRow →
    List (String × Option String × Option String)
  | _, _, [] => []
  | curG, curT, row :: rest =>
      let curG2 := match row.gruppVal with
        | some (some txt) => some (strStrip txt)
        | _ => curG
      let curT2 := match row.tidVal with
        | some (some txt) => some (strStrip txt)
        | _ => curT
      match row.aktVal with
      | some (some txt) =>
          (strStrip txt,
            (match curG2 with
              | some g => if g ≠ "" then some g else none
              | none => none),
            (match curT2 with
              | some t => if t ≠ "" then some t else none
              | none => none)) :: specBlocks curG2 curT2 rest
      | _ => specBlocks curG2 curT2 rest

/-- Modelled from the spec wording: the expected listing is the positional
zip of the label blocks with the detail links, each block keeping its own
nearest preceding group. -/
def specListing (rows : List LibRow) (hrefs : List String) :
    List LibActivity :=
  List.zipWith
    (fun b l =>
      { name := b.1
        group := (b.2.1).getD "Unknown Group"
        url := l.url
        eventId := l.eventId
        userId := l.userId
        time := b.2.2 })
    (specBlocks none none rows) (hrefs.map parseStatLink)

/-- A participant dict of `_parse_activity_info`. -/
structure LibParticipant where
  name : String
  timestamp : String
  status : String
  comment : String
  guests : Nat
deriving Repr, DecidableEq

/-- The participant-cell marker of `_parse_activity_info`. -/
def tdLeftTag : String := "<td class=\"TextSmall\" align=\"left\">"

/-- The comment-cell marker of `_parse_activity_info`. -/
def tdPlainTag : String := "<td class=\"TextSmall\" >"

/-- Closing cell tag. -/
def tdClose : String := "</td>"

/-- The attending marker of `_parse_activity_info`. -/
def jaMarker : String := "<font color=\"green\">Ja!"

/-- The not-attending marker of `_parse_activity_info`. -/
def nejMarker : String := "<font color=\"red\">Nej!"

/-- The guest-cell marker of `_parse_activity_info`. -/
def guestTdTag : String := "<td class=\"TextSmall\" align=\"left\" width=\"50\">"

/-- The status classification of one roster row of
`_parse_activity_info`: green `Ja!` marker, else red `Nej!` marker, else
`NoReply`.  The comment cell plays no role. -/
def infoRowStatus (row : String) : String :=
  if strHasSub row jaMarker then "Attending"
  else if strHasSub row nejMarker then "NotAttending"
  else "NoReply"

/-- The Python regex search
`<td ... width="50">\s*\+(\d+)\s*</td>` of `_parse_activity_info`.  The
greedy `\s*` and `\d+` runs are exact because each is followed by a
character outside its class. -/
def findGuestCell (tag close : List Char) : List Char → Option Nat
  | [] => none
  | c :: t =>
      if listStarts tag (c :: t) then
        match ((c :: t).drop tag.length).dropWhile Char.isWhitespace with
        | '+' :: r2 =>
            let ds := r2.takeWhile Char.isDigit
            if ds.isEmpty then findGuestCell tag close t
            else if listStarts close
                ((r2.drop ds.length).dropWhile Char.isWhitespace) then
              some (digitsToNat ds)
            else findGuestCell tag close t
        | _ => findGuestCell tag close t
      else findGuestCell tag close t

/-- One row of the participant loop of `_parse_activity_info`
(`bokat_se_lib/bokatapi.py` lines 305-361), over the row chunk produced
by `html.split` on the row tag: skip rows without the participant cell
marker; classify the status from the colored markers; capture the name
cell, split it at the first `<br>` into name and a parenthesized
timestamp; drop empty or status-only names; capture the guest count and
the comment cell (a literal `&nbsp;` comment becomes empty). -/
def parse_info_row (row : String) : Option LibParticipant :=
  if ¬ strHasSub row tdLeftTag then none
  else
    match lazyCapture tdLeftTag.toList tdClose.toList false row.toList with
    | none => none
    | some nameSeg =>
        let name_text := listStrip nameSeg
        let parts := splitFirst ("<br>".toList) name_text
        let name := String.mk (listStrip (match parts with
          | some (pre, _) => pre
          | none => name_text))
        let timestamp := match parts with
          | some (_, post) =>
              match lazyCapture ['('] [')'] false post with
              | some seg => String.mk (listStrip seg)
              | none => ""
          | none => ""
        if name == "" || name == "Ja!" || name == "Nej!" then none
        else
          let guests :=
            (findGuestCell guestTdTag.toList tdClose.toList row.toList).getD 0
          let comment0 :=
            match lazyCapture tdPlainTag.toList tdClose.toList true
                row.toList with
            | some seg => String.mk (listStrip seg)
            | none => ""
          let comment := if comment0 == "&nbsp;" then "" else comment0
          some ⟨name, timestamp, infoRowStatus row, comment, guests⟩

/-- The participant list of `_parse_activity_info`: the html is split on
the row tag and each chunk is fed to the row parser. -/
def parse_activity_info_participants (html : String) : List LibParticipant :=
  (html.splitOn "<tr>").filterMap parse_info_row

/-- The `data` dict built by `reply_to_activity` for the POST body:
an optional `comment` entry, then the reply-type specific fields
(`nrOfGuests` is posted for `yes` only when positive, and is the literal
`"0"` for `no`); an unknown reply type returns `False` without posting
(`none` here). -/
def reply_form_data (reply_type : String) (comment : String) (guests : Int) :
    Option (List (String × String)) :=
  let data := if comment ≠ "" then [("comment", comment)] else []
  if reply_type == "yes" then
    some (data ++ [("accept", "Tacka Ja"), ("currentStatus", "null")]
      ++ (if guests > 0 then [("nrOfGuests", toString guests)] else []))
  else if reply_type == "no" then
    some (data ++ [("decline", "Tacka Nej"), ("currentStatus", "null"),
      ("nrOfGuests", "0")])
  else if reply_type == "comment_only" then
    some (data ++ [("onlyComment", "Endast kommentar")])
  else none

/-- The response interpretation of `reply_to_activity`
(`bokat_se_lib/bokatapi.py` lines 489-502): any non-200 status is
failure; a 200 body is success only when it contains the saved marker. -/
def interpret_reply_response (status : Nat) (body : String) : Bool :=
  if status ≠ 200 then false
  else if strHasSub body "<b>Sparat.</b>" then true
  else false

end BokatLib

namespace BokatApi

/-!
Embedding of `BokatAPI` in `custom_components/bokat_se/bokatapi.py`.
-/

/-- An activity record of this module: a Python dict with string keys and
values, modelled as an insertion-ordered association list (the different
parsing strategies build dicts with different key sets). -/
abbrev Act := List (String × String)

/-- A harvested anchor: its text and its optional href attribute. -/
structure ALink where
  text : String
  href : Option String
deriving Repr, DecidableEq

/-- One row of the activities table of the `userPage.jsp` strategy:
whether the row holds a `RowHeader` header cell, the href of the first
detail link in the row when one exists, and the raw `<td>` texts in
order. -/
structure ARow where
  hasRowHeaderTh : Bool
  statLinkHref : Option String
  cells : List String
deriving Repr, DecidableEq

/-- A JSON value, for the embedded-payload strategy. -/
inductive JVal where
  | str (s : String)
  | num (n : Int)
  | obj (fields : List (String × JVal))
  | arr (items : List JVal)

/-- A `<script>` tag: its text content (`none` when the tag has no string
content) and, when the slice between its first `{` and last `}` parses as
JSON, that parse (`none` models both a missing slice and a parse error,
which the source catches and skips). -/
structure ScriptTag where
  content : Option String
  braced : Option JVal

/-- The authenticated page soup abstracted into the query results
`_parse_activities` and the login success check consume.
`hasLoginMarker` records whether a login-page marker occurs in the body;
the source success check reads only `headerLarge`, the marker field
exists to state claims about pages that are still the login page.
`aktRows` is present when a `RowHeader` header cell containing
`Aktiviteter` with a parent table is found; `contentLinks` when a
`#content`/`.content`/`main` area exists; `tableRows` lists the matching
detail links per table and row; `allLinks` the matching links of the
whole document; `appItems` the first anchor of each
`.activity-item`/`.event-item`/`.card`/`.list-item` element. -/
structure UserPage where
  headerLarge : Option String
  hasLoginMarker : Bool
  aktRows : Option (List ARow)
  contentLinks : Option (List ALink)
  tableRows : List (List (List ALink))
  allLinks : List ALink
  appItems : List (Option ALink)
  scripts : List ScriptTag

/-- Url normalization of this module: any href not starting with `http`
is appended to the base url. -/
def fixUrl (href : String) : String :=
  if strStarts href "http" then href else "https://www.bokat.se/" ++ href

/-- Python `k in d` for the activity dicts. -/
def dictHas (d : Act) (k : String) : Bool :=
  (d.lookup k).isSome

/-- One row of the `userPage.jsp` strategy: header rows are skipped; a
detail link flushes the current activity (when it has name and url keys)
and starts a fresh one keyed by the link; then the second and third cells
are read as a label/value pair updating the current activity. -/
def s1Row (st : Act × List Act) (row : ARow) : Act × List Act :=
  if row.hasRowHeaderTh then st
  else
    let cur0 := st.1
    let acc0 := st.2
    let next : Act × List Act :=
      match row.statLinkHref with
      | some href =>
          (([("name", ""), ("url", fixUrl href), ("group", ""),
             ("date_time", "")] : Act),
           if ¬ cur0.isEmpty ∧ dictHas cur0 "name" ∧ dictHas cur0 "url" then
             acc0 ++ [cur0]
           else acc0)
      | none => (cur0, acc0)
    let cur := next.1
    let acc := next.2
    match row.cells[1]?, row.cells[2]? with
    | some labelText, some valueText =>
        let label := strStrip labelText
        let value := strStrip valueText
        if strHasSub label "Grupp" ∧ ¬ cur.isEmpty then
          (dictSet cur "group" value, acc)
        else if strHasSub label "Aktivitet" ∧ ¬ cur.isEmpty then
          (dictSet cur "name" value, acc)
        else if strHasSub label "Tid" ∧ ¬ cur.isEmpty then
          (dictSet cur "date_time" value, acc)
        else (cur, acc)
    | _, _ => (cur, acc)

/-- Strategy 1 of `_parse_activities` (`userPage.jsp` format): walk the
rows of the `Aktiviteter` table, flushing the last current activity at
the end. -/
def parse_s1 (p : UserPage) : List Act :=
  match p.aktRows with
  | none => []
  | some rows =>
      let r := rows.foldl s1Row ([], [])
      if ¬ r.1.isEmpty ∧ dictHas r.1 "name" ∧ dictHas r.1 "url" then
        r.2 ++ [r.1]
      else r.2

/-- The link-to-activity conversion shared by strategies 2, 3, 4 and the
app-item pass: skip links with falsy text or href, normalize the url. -/
def linkToAct (l : ALink) : Option Act :=
  match l.href with
  | none => none
  | some href =>
      let name := strStrip l.text
      if name == "" ∨ href == "" then none
      else some [("name", name), ("url", fixUrl href)]

/-- Strategy 2: detail links of the main content area, when one exists. -/
def parse_s2 (p : UserPage) : List Act :=
  match p.contentLinks with
  | none => []
  | some links => links.filterMap linkToAct

/-- Strategy 3: detail links found in any table row. -/
def parse_s3 (p : UserPage) : List Act :=
  (p.tableRows.map (fun rows =>
    (rows.map (fun links => links.filterMap linkToAct)).flatten)).flatten

/-- Strategy 4: all detail links of the document. -/
def parse_s4 (p : UserPage) : List Act :=
  p.allLinks.filterMap linkToAct

/-- The app-format item pass: the first anchor of each item, when there
is one, converted like any other link. -/
def parse_s5app (p : UserPage) : List Act :=
  p.appItems.filterMap (fun it =>
    match it with
    | none => none
    | some l => linkToAct l)

/-- Python `d[k]` lookup on a JSON object field list. -/
def jlookup (fields : List (String × JVal)) (k : String) : Option JVal :=
  fields.lookup k

/-- Rendering of a primitive JSON value into the string slot of an
activity dict (the payloads of these pages carry strings and numbers;
nested values do not occur and are rendered empty). -/
def jToStr : JVal → String
  | .str s => s
  | .num n => toString n
  | .obj _ => ""
  | .arr _ => ""

/-- One JSON item of the embedded payload: an object with `name` and
`url` keys is appended as is (primitive fields rendered to strings); an
object with `name` and `id` keys becomes a synthesized `stat.jsp` url;
anything else contributes nothing. -/
def jItemToActs (j : JVal) : List Act :=
  match j with
  | .obj fields =>
      if (jlookup fields "name").isSome ∧ (jlookup fields "url").isSome then
        [fields.filterMap (fun kv =>
          match kv.2 with
          | .str s => some (kv.1, s)
          | .num n => some (kv.1, toString n)
          | _ => none)]
      else
        match jlookup fields "name", jlookup fields "id" with
        | some nv, some idv =>
            [[("name", jToStr nv),
              ("url", "https://www.bokat.se/stat.jsp?eventId=" ++ jToStr idv)]]
        | _, _ => []
  | _ => []

/-- The embedded-JSON pass for one script tag: scripts with falsy content
or without the `activities`/`events` substring are skipped; otherwise the
braced slice must have parsed into an object whose `activities` (or else
`events`) key holds an array, each item contributing as above.  Payloads
of any other shape raise inside the per-script `try` of the source and
contribute nothing. -/
def scriptActs (s : ScriptTag) : List Act :=
  match s.content with
  | none => []
  | some txt =>
      if txt == "" then []
      else if strHasSub txt "activities" || strHasSub txt "events" then
        match s.braced with
        | none => []
        | some (.obj fields) =>
            (match jlookup fields "activities" with
            | some (.arr items) => (items.map jItemToActs).flatten
            | some _ => []
            | none =>
                match jlookup fields "events" with
                | some (.arr items) => (items.map jItemToActs).flatten
                | _ => [])
        | some _ => []
      else []

/-- The embedded-JSON pass over all script tags. -/
def parse_s5json (p : UserPage) : List Act :=
  (p.scripts.map scriptActs).flatten

/-- `BokatAPI._parse_activities` (`bokat_se/bokatapi.py` lines 173-429):
strategy 1 returns early when nonempty; strategies 2, 3 and 4 each run
only on an empty running list; the final block runs on an empty running
list and appends BOTH the app-item pass and the embedded-JSON pass (the
source guards the block once, not the JSON pass inside it). -/
def parse_activities (p : UserPage) : List Act :=
  let a1 := parse_s1 p
  if ¬ a1.isEmpty then a1
  else
    let a := parse_s2 p
    let a := if a.isEmpty then parse_s3 p else a
    let a := if a.isEmpty then parse_s4 p else a
    if a.isEmpty then parse_s5app p ++ parse_s5json p else a

/-- The home (login) page of the `_login` handshake, abstracted into the
checks the source performs on it. -/
structure HomePage where
  status : Nat
  hasLoginFormAction : Bool
  hasEmailField : Bool
  hasPassField : Bool
deriving Repr, DecidableEq

/-- One `_login` interaction: the home-page fetch and the credential POST
with its status and resulting page. -/
structure LoginTranscript where
  home : HomePage
  postStatus : Nat
  postPage : UserPage

/-- The only success signal `_login` consults: an `h1.HeaderLarge`
heading whose text contains `Användarsida`. -/
def login_success_header (p : UserPage) : Bool :=
  match p.headerLarge with
  | some h => strHasSub h "Användarsida"
  | none => false

/-- `BokatAPI._login` (`bokat_se/bokatapi.py` lines 44-143): `None` on a
non-200 home fetch, a missing login form, missing credential fields, a
non-200 POST, or a POST body without the success heading; the soup of the
POST body on success.  Every failure path returns `None`; no exception
escapes (the enclosing `except` also returns `None`). -/
def login (t : LoginTranscript) : Option UserPage :=
  if t.home.status ≠ 200 then none
  else if ¬ t.home.hasLoginFormAction then none
  else if ¬ t.home.hasEmailField ∧ ¬ t.home.hasPassField then none
  else if t.postStatus ≠ 200 then none
  else if login_success_header t.postPage then some t.postPage
  else none

/-- The failure taxonomy the spec prescribes for the listing operation;
the embedding returns `Except` so that a raised authentication error
would be representable. -/
inductive ApiFailure where
  | authenticationFailed
deriving Repr, DecidableEq

/-- `BokatAPI.list_activities` (`bokat_se/bokatapi.py` lines 145-169):
on login failure it logs and returns the empty list; on success it runs
`_parse_activities`, logs the result, and returns the literal empty list
(the parse result is bound to a placeholder and discarded).  No path
raises. -/
def list_activities (t : LoginTranscript) : Except ApiFailure (List Act) :=
  match login t with
  | none => .ok []
  | some soup =>
      let _test := parse_activities soup
      .ok []

end BokatApi

/-!
Concrete sample inputs used by the counterexamples and witnesses below.
-/

/-- A detail page for the regex detail parser: one attending row with two
guests, one declining row, one unanswered row. -/
def cDetailPage : Client.DetailPage :=
  { h1Text := some "Padel"
    statusDivText := none
    answerHref := some "answer.jsp?eventId=1&userId=2"
    rowMatches :=
      [("Anna", "Kommer + 2", "", "2024-01-02"),
       ("Bo", "Kommer inte", "", "2024-01-03"),
       ("Cia", "", "", "")] }

/-- A detail page for the soup detail parser: a header row, an attending
row and a comment-only row. -/
def cSoupPage : Client.SoupPage :=
  { h1Text := none
    titleText := some "Bokat.se - Padel"
    statusDivText := some "3 svar"
    answerHref := some "answer.jsp?eventId=1&userId=2"
    tables :=
      [[["Namn", "Status", "Kommentar"],
        ["Anna", "Kommer", "Hej", "2024-01-02"],
        ["Bo", "Endast kommentar", "Kan ej", "2024-01-03"]]] }

/-- A count-consistent existing details dict, as `get_activity_details`
passes the regex result into the soup parser. -/
def cExisting : Client.ActivityDetails :=
  { name := "Padel", status := "Öppen",
    url := "https://www.bokat.se/stat.jsp?eventId=1&userId=2",
    participants := [⟨"Anna", "yes", "", "2024-01-02", 2⟩],
    total_participants := 1, attending_count := 1, not_attending_count := 0,
    no_response_count := 0, answer_url := "" }

/-- A detail page whose only roster row has a blank status cell and a
nonempty comment. -/
def c3page : Client.DetailPage :=
  { h1Text := none, statusDivText := none, answerHref := none,
    rowMatches := [("Anna", "", "Hejsan", "2024-01-02")] }

/-- A roster row chunk (after the row split) with no status marker and a
nonempty comment cell. -/
def c3row : String :=
  "<td class=\"TextSmall\" align=\"left\">Anna<br> (2024-01-02)</td><td class=\"TextSmall\" >Hejsan</td>"

/-- A login transcript whose POST comes back 200 but still shows the
login page: login form marker present, no success heading. -/
def cLoginPage : BokatApi.UserPage :=
  { headerLarge := none, hasLoginMarker := true, aktRows := none,
    contentLinks := none, tableRows := [], allLinks := [], appItems := [],
    scripts := [] }

/-- The transcript for the scenario of claim C2. -/
def ct2 : BokatApi.LoginTranscript :=
  { home := ⟨200, true, true, true⟩, postStatus := 200,
    postPage := cLoginPage }

/-- An authenticated page on which strategies 1-4 find nothing, one
app-format card holds a link, and one script holds an embedded JSON
payload. -/
def cpage7 : BokatApi.UserPage :=
  { headerLarge := some "Användarsida"
    hasLoginMarker := false
    aktRows := none
    contentLinks := none
    tableRows := []
    allLinks := []
    appItems := [some ⟨"Padel", some "activityPage.jsp?x=1"⟩]
    scripts :=
      [{ content := some "var activities = payload;"
         braced := some (.obj [("activities", .arr
           [.obj [("name", .str "Runda"),
                  ("url", .str "https://www.bokat.se/stat.jsp?eventId=2&userId=3")]])]) }] }

/-- Three listing label blocks — the first two in different groups share
one activity name — with three matching detail links in document order. -/
def c4rows : List BokatLib.LibRow :=
  [⟨some (some "Innebandy"), none, none⟩,
   ⟨none, none, some (some "Match")⟩,
   ⟨some (some "Fotboll"), none, none⟩,
   ⟨none, none, some (some "Match")⟩,
   ⟨none, none, some (some "Träning")⟩]

/-- The three detail links for `c4rows`. -/
def c4hrefs : List String :=
  ["stat.jsp?eventId=11&userId=21", "stat.jsp?eventId=12&userId=22",
   "stat.jsp?eventId=13&userId=23"]

/-- Three listing label blocks with distinct names (the first with a time
label), for the amended pairing statement. -/
def c4wrows : List BokatLib.LibRow :=
  [⟨some (some "Innebandy"), some (some "Tisdag 19:00"), none⟩,
   ⟨none, none, some (some "Match")⟩,
   ⟨some (some "Fotboll"), none, none⟩,
   ⟨none, none, some (some "Träning")⟩,
   ⟨none, none, some (some "Cykling")⟩]

/-- A failing login behavior: the source `login()` always begins with a
POST to the login endpoint and stores the response cookies before
returning `False`. -/
def lbFail : Client.LoginBehavior :=
  { result := false, cookiesAfter := [],
    requests := ["POST https://www.bokat.se/login.jsp"] }

/-- A succeeding login behavior, leaving a session cookie behind. -/
def lbOk : Client.LoginBehavior :=
  { result := true, cookiesAfter := [("JSESSIONID", "abc123")],
    requests := ["POST https://www.bokat.se/login.jsp"] }

/-!
Helper lemmas.
-/

theorem foldl_inv {α β : Type} (P : α → Prop) (f : α → β → α)
    (hf : ∀ a b, P a → P (f a b)) :
    ∀ (l : List β) (a : α), P a → P (l.foldl f a) := by
  intro l
  induction l with
  | nil => intro a h; exact h
  | cons b t ih => intro a h; exact ih (f a b) (hf a b h)

theorem lookup_cons_ne (k k2 v2 : String) (tl : List (String × String))
    (h : k ≠ k2) : ((k2, v2) :: tl).lookup k = tl.lookup k := by
  have hb : (k == k2) = false := beq_eq_false_iff_ne.mpr h
  simp [List.lookup, hb]

theorem lookup_cons_eq (k v2 : String) (tl : List (String × String)) :
    ((k, v2) :: tl).lookup k = some v2 := by
  simp [List.lookup]

theorem lookup_append (l1 l2 : List (String × String)) (k : String) :
    (l1 ++ l2).lookup k =
      match l1.lookup k with
      | some v => some v
      | none => l2.lookup k := by
  induction l1 with
  | nil => simp [List.lookup]
  | cons hd tl ih =>
      obtain ⟨k2, v2⟩ := hd
      by_cases h : k = k2
      · subst h
        rw [List.cons_append, lookup_cons_eq, lookup_cons_eq]
      · rw [List.cons_append, lookup_cons_ne _ _ _ _ h,
          lookup_cons_ne _ _ _ _ h, ih]

theorem lookup_mem {d : List (String × String)} {k v : String}
    (h : d.lookup k = some v) : (k, v) ∈ d := by
  induction d with
  | nil => simp [List.lookup] at h
  | cons hd tl ih =>
      obtain ⟨k2, v2⟩ := hd
      by_cases hk : k = k2
      · subst hk
        rw [lookup_cons_eq] at h
        obtain rfl : v2 = v := by injection h
        exact List.mem_cons_self _ _
      · rw [lookup_cons_ne _ _ _ _ hk] at h
        exact List.mem_cons_of_mem _ (ih h)

theorem merge_hidden_cons (fd : List (String × String))
    (hd : String × String) (tl : List (String × String)) :
    Client.merge_hidden fd (hd :: tl) =
      Client.merge_hidden
        (if hd.1 ≠ "" ∧ hd.2 ≠ "" ∧ (fd.lookup hd.1).isNone then fd ++ [hd]
         else fd) tl := rfl

theorem merge_hidden_lookup (hidden : List (String × String)) :
    ∀ (fd : List (String × String)) (k : String),
    (fd.lookup k).isSome →
      (Client.merge_hidden fd hidden).lookup k = fd.lookup k := by
  induction hidden with
  | nil => intro fd k _; rfl
  | cons hd tl ih =>
      intro fd k hk
      rw [merge_hidden_cons]
      by_cases hcond : hd.1 ≠ "" ∧ hd.2 ≠ "" ∧ (fd.lookup hd.1).isNone
      · have happ : ((fd ++ [hd]).lookup k) = fd.lookup k := by
          rw [lookup_append]
          obtain ⟨v, hv⟩ := Option.isSome_iff_exists.mp hk
          rw [hv]
        rw [if_pos hcond, ih (fd ++ [hd]) k (by rw [happ]; exact hk), happ]
      · rw [if_neg hcond]
        exact ih fd k hk

/-!
Claim theorems.
-/

/-- Claim C8: the public `list_activities` of `BokatAPI` in
`bokat_se/bokatapi.py` returns the empty list for every input: the parsed
result is bound and discarded and the literal empty list is returned
after authentication, and the login-failure path also returns the empty
list. -/
theorem C8_list_activities_always_empty (t : BokatApi.LoginTranscript) :
    BokatApi.list_activities t = Except.ok [] := by
  unfold BokatApi.list_activities
  cases BokatApi.login t <;> rfl

/-- Claim C2, counterexample: a transcript whose login POST returns
HTTP 200 with the login form marker still present makes `list_activities`
return the ok-empty list, not an authentication error — the claim that an
`AuthenticationError` is raised (and that the failure is not converted
into an empty list) is false on the code. -/
theorem C2_counterexample :
    ct2.postStatus = 200 ∧ ct2.postPage.hasLoginMarker = true ∧
    BokatApi.list_activities ct2 = Except.ok [] ∧
    BokatApi.list_activities ct2 ≠ Except.error .authenticationFailed := by
  have he : BokatApi.list_activities ct2 = Except.ok [] := rfl
  refine ⟨rfl, rfl, he, ?_⟩
  rw [he]
  intro h
  exact Except.noConfusion h

/-- Claim C2, amended: when the login POST returns HTTP 200 but the body
still shows the login page (login form marker present, no
`Användarsida` success heading), `_login` returns the `None` failure
sentinel and `list_activities` logs the failure and returns the empty
list; no exception is raised. -/
theorem C2_login_failure_returns_empty (t : BokatApi.LoginTranscript)
    (h200 : t.postStatus = 200)
    (hmarker : t.postPage.hasLoginMarker = true)
    (hhdr : BokatApi.login_success_header t.postPage = false) :
    BokatApi.login t = none ∧
    BokatApi.list_activities t = Except.ok [] := by
  have hl : BokatApi.login t = none := by
    unfold BokatApi.login
    split_ifs <;> simp_all
  refine ⟨hl, ?_⟩
  unfold BokatApi.list_activities
  rw [hl]

theorem C2_login_failure_returns_empty_witness :
    BokatApi.login ct2 = none ∧
    BokatApi.list_activities ct2 = Except.ok [] :=
  C2_login_failure_returns_empty ct2 rfl rfl rfl

/-- Claim C5: a reply POST answered with HTTP 200 and a body containing
neither a success phrase nor a login marker is reported as failure by
both submission implementations. -/
theorem C5_ambiguous_200_is_failure (body : String)
    (h1 : strHasSub body "Tack för ditt svar" = false)
    (h2 : strHasSub body "Thank you for your response" = false)
    (h3 : strHasSub body "<b>Sparat.</b>" = false)
    (h4 : strHasSub body "Logga in" = false)
    (h5 : strHasSub body "login.jsp" = false) :
    Client.interpret_submit_response 200 body = false ∧
    BokatLib.interpret_reply_response 200 body = false := by
  constructor
  · unfold Client.interpret_submit_response
    simp [h1, h2, h4, h5]
  · unfold BokatLib.interpret_reply_response
    simp [h3]

theorem C5_ambiguous_200_is_failure_witness :
    Client.interpret_submit_response 200 "<html>hej</html>" = false ∧
    BokatLib.interpret_reply_response 200 "<html>hej</html>" = false :=
  C5_ambiguous_200_is_failure "<html>hej</html>"
    (by decide) (by decide) (by decide) (by decide) (by decide)

/-- Claim C10, counterexample: with an empty cookie jar, an activity url
without the `eventId=..&userId=..` pattern does not make
`submit_response` return `False` before any HTTP request — the login
attempt runs first: a failing login raises `ConfigEntryAuthFailed` after
issuing its requests, and a succeeding login returns `False` only after
issuing requests and replacing the cookie state. -/
theorem C10_counterexample :
    Client.submit_response_prologue lbFail []
        "https://www.bokat.se/activityPage.jsp"
      = (.raisedAuthFailed, lbFail.requests, []) ∧
    lbFail.requests ≠ [] ∧
    Client.submit_response_prologue lbOk []
        "https://www.bokat.se/activityPage.jsp"
      = (.returnedFalse, lbOk.requests, lbOk.cookiesAfter) ∧
    lbOk.cookiesAfter ≠ [] := by
  refine ⟨by decide, by decide, by decide, by decide⟩

/-- Claim C10, amended: when the client already holds session cookies, a
url not matching `eventId=(\d+)&userId=(\d+)` makes `submit_response`
return `False` before issuing any HTTP request, with the cookie state
unchanged. -/
theorem C10_invalid_url_no_side_effects (lb : Client.LoginBehavior)
    (cookies : List (String × String)) (activity_url : String)
    (hc : cookies ≠ [])
    (hm : findEventUser activity_url.toList = none) :
    Client.submit_response_prologue lb cookies activity_url
      = (.returnedFalse, [], cookies) := by
  unfold Client.submit_response_prologue
  have hemp : cookies.isEmpty = false := by
    cases cookies with
    | nil => exact absurd rfl hc
    | cons a b => rfl
  have hm2 : findEventUser activity_url.data = none := hm
  rw [hemp]
  simp [hm2]

theorem C10_invalid_url_no_side_effects_witness :
    Client.submit_response_prologue lbFail [("JSESSIONID", "zzz")]
        "https://www.bokat.se/answer.jsp"
      = (.returnedFalse, [], [("JSESSIONID", "zzz")]) :=
  C10_invalid_url_no_side_effects lbFail [("JSESSIONID", "zzz")]
    "https://www.bokat.se/answer.jsp" (by decide) (by decide)

/-- Claim C7, counterexample: a page on which strategies 1-4 find
nothing, while the app-format pass and the embedded-JSON pass each find
one activity, returns the concatenation of BOTH passes — not the output
of the first strategy that produced a nonempty result. -/
theorem C7_counterexample :
    BokatApi.parse_s1 cpage7 = [] ∧
    BokatApi.parse_s2 cpage7 = [] ∧
    BokatApi.parse_s3 cpage7 = [] ∧
    BokatApi.parse_s4 cpage7 = [] ∧
    BokatApi.parse_s5app cpage7
      = [[("name", "Padel"),
          ("url", "https://www.bokat.se/activityPage.jsp?x=1")]] ∧
    BokatApi.parse_s5json cpage7
      = [[("name", "Runda"),
          ("url", "https://www.bokat.se/stat.jsp?eventId=2&userId=3")]] ∧
    BokatApi.parse_activities cpage7 ≠ BokatApi.parse_s5app cpage7 := by
  refine ⟨rfl, rfl, rfl, rfl, by decide, by decide, by decide⟩

/-- Claim C7, amended: strategies 1 through 4 of `_parse_activities` each
run only when every earlier strategy produced zero activities and their
first nonempty result is returned unmixed; but when strategies 1-4 all
produce zero activities, the returned list is the concatenation of the
app-format pass and the embedded-JSON pass, which both run inside one
emptiness guard. -/
theorem C7_fallback_chain (p : BokatApi.UserPage) :
    (BokatApi.parse_s1 p ≠ [] →
      BokatApi.parse_activities p = BokatApi.parse_s1 p) ∧
    (BokatApi.parse_s1 p = [] → BokatApi.parse_s2 p ≠ [] →
      BokatApi.parse_activities p = BokatApi.parse_s2 p) ∧
    (BokatApi.parse_s1 p = [] → BokatApi.parse_s2 p = [] →
      BokatApi.parse_s3 p ≠ [] →
      BokatApi.parse_activities p = BokatApi.parse_s3 p) ∧
    (BokatApi.parse_s1 p = [] → BokatApi.parse_s2 p = [] →
      BokatApi.parse_s3 p = [] → BokatApi.parse_s4 p ≠ [] →
      BokatApi.parse_activities p = BokatApi.parse_s4 p) ∧
    (BokatApi.parse_s1 p = [] → BokatApi.parse_s2 p = [] →
      BokatApi.parse_s3 p = [] → BokatApi.parse_s4 p = [] →
      BokatApi.parse_activities p
        = BokatApi.parse_s5app p ++ BokatApi.parse_s5json p) := by
  unfold BokatApi.parse_activities
  refine ⟨?_, ?_, ?_, ?_, ?_⟩ <;> intros <;> simp_all

theorem C7_fallback_chain_witness :
    BokatApi.parse_activities cpage7
      = BokatApi.parse_s5app cpage7 ++ BokatApi.parse_s5json cpage7 :=
  (C7_fallback_chain cpage7).2.2.2.2 rfl rfl rfl rfl

theorem detailRowClassify_inv (acc : List Client.Participant × Nat × Nat × Nat)
    (name st c ts : String)
    (h : acc.2.1 + acc.2.2.1 + acc.2.2.2 = acc.1.length) :
    (Client.detailRowClassify acc name st c ts).2.1
        + (Client.detailRowClassify acc name st c ts).2.2.1
        + (Client.detailRowClassify acc name st c ts).2.2.2
      = (Client.detailRowClassify acc name st c ts).1.length := by
  obtain ⟨ps, a, na, nr⟩ := acc
  simp only [Client.detailRowClassify]
  split_ifs <;> simp_all [List.length_append] <;> omega

theorem detailRowStep_inv (acc : List Client.Participant × Nat × Nat × Nat)
    (m : String × String × String × String)
    (h : acc.2.1 + acc.2.2.1 + acc.2.2.2 = acc.1.length) :
    (Client.detailRowStep acc m).2.1 + (Client.detailRowStep acc m).2.2.1
        + (Client.detailRowStep acc m).2.2.2
      = (Client.detailRowStep acc m).1.length :=
  detailRowClassify_inv acc _ _ _ _ h

theorem soupRowStep_inv (acc : List Client.Participant × Nat × Nat × Nat)
    (cells : List String)
    (h : acc.2.1 + acc.2.2.1 + acc.2.2.2 = acc.1.length) :
    (Client.soupRowStep acc cells).2.1 + (Client.soupRowStep acc cells).2.2.1
        + (Client.soupRowStep acc cells).2.2.2
      = (Client.soupRowStep acc cells).1.length := by
  match cells with
  | [] => exact h
  | [a] => exact h
  | [a, b] => exact h
  | a :: b :: c :: rest =>
      simp only [Client.soupRowStep]
      split
      · exact h
      · exact detailRowClassify_inv acc _ _ _ _ h

theorem soupHeaderApply_fields (b : Client.ActivityDetails)
    (p : Client.SoupPage) :
    (Client.soupHeaderApply b p).participants = b.participants ∧
    (Client.soupHeaderApply b p).total_participants = b.total_participants ∧
    (Client.soupHeaderApply b p).attending_count = b.attending_count ∧
    (Client.soupHeaderApply b p).not_attending_count = b.not_attending_count ∧
    (Client.soupHeaderApply b p).no_response_count = b.no_response_count := by
  unfold Client.soupHeaderApply
  obtain ⟨h1, tt, sd, ah, tb⟩ := p
  cases h1 <;> cases tt <;> cases sd <;> cases ah <;>
    simp only <;>
    (repeat' split) <;> simp

/-- Claim C1: for every ActivityDetail returned by the two
detail-extraction functions, the counts reconcile —
`attending_count + not_attending_count + no_response_count` equals
`total_participants`, which equals the length of the returned
participants list.  The regex parser guarantees this unconditionally (it
recomputes all four fields from its participant scan); the soup parser
guarantees it whenever the `existing_details` it starts from satisfies
it (in the source the only caller passes the regex result), because it
either keeps those fields or overwrites all of them together from its
own scan. -/
theorem C1_detail_counts (p : Client.DetailPage) (sp : Client.SoupPage)
    (u1 u2 : String) (ex : Option Client.ActivityDetails)
    (hex : ∀ d, ex = some d → Client.countsOk d) :
    Client.countsOk (Client.parse_activity_details p u1) ∧
    Client.countsOk (Client.parse_activity_details_with_soup sp u2 ex) := by
  constructor
  · unfold Client.parse_activity_details
    have hr := foldl_inv
      (fun acc : List Client.Participant × Nat × Nat × Nat =>
        acc.2.1 + acc.2.2.1 + acc.2.2.2 = acc.1.length)
      Client.detailRowStep (fun a b hh => detailRowStep_inv a b hh)
      p.rowMatches ([], 0, 0, 0) rfl
    exact ⟨hr, rfl⟩
  · unfold Client.parse_activity_details_with_soup
    have hr := foldl_inv
      (fun acc : List Client.Participant × Nat × Nat × Nat =>
        acc.2.1 + acc.2.2.1 + acc.2.2.2 = acc.1.length)
      (fun a rows => rows.foldl Client.soupRowStep a)
      (fun a rows ha =>
        foldl_inv _ Client.soupRowStep
          (fun a2 c2 h2 => soupRowStep_inv a2 c2 h2) rows a ha)
      sp.tables ([], 0, 0, 0) rfl
    have hbase : Client.countsOk
        (Client.soupHeaderApply (ex.getD (Client.emptyDetails u2)) sp) := by
      have hb : Client.countsOk (ex.getD (Client.emptyDetails u2)) := by
        cases ex with
        | none => exact ⟨rfl, rfl⟩
        | some d => exact hex d rfl
      obtain ⟨f1, f2, f3, f4, f5⟩ :=
        soupHeaderApply_fields (ex.getD (Client.emptyDetails u2)) sp
      exact ⟨by rw [f3, f4, f5, f2]; exact hb.1,
        by rw [f2, f1]; exact hb.2⟩
    dsimp only
    split
    · exact hbase
    · exact ⟨hr, rfl⟩

theorem C1_detail_counts_witness :
    Client.countsOk (Client.parse_activity_details cDetailPage
      "https://www.bokat.se/stat.jsp?eventId=1&userId=2") ∧
    Client.countsOk (Client.parse_activity_details_with_soup cSoupPage
      "https://www.bokat.se/stat.jsp?eventId=1&userId=2" (some cExisting)) :=
  C1_detail_counts cDetailPage cSoupPage
    "https://www.bokat.se/stat.jsp?eventId=1&userId=2"
    "https://www.bokat.se/stat.jsp?eventId=1&userId=2" (some cExisting)
    (fun d h => by cases h; exact ⟨rfl, rfl⟩)

/-- Claim C3, counterexample: a roster row whose status cell matches no
marker and whose comment is nonempty is classified `no_response` by the
regex detail parser and `NoReply` by the `_parse_activity_info` row
parser — not `comment_only`: the classification never consults the
comment. -/
theorem C3_counterexample :
    (Client.parse_activity_details c3page "u").participants
      = [⟨"Anna", "no_response", "Hejsan", "2024-01-02", 0⟩] ∧
    BokatLib.parse_info_row c3row
      = some ⟨"Anna", "2024-01-02", "NoReply", "Hejsan", 0⟩ ∧
    ("Hejsan" : String) ≠ "" := by
  refine ⟨by decide, by decide, by decide⟩

/-- Claim C3, amended: the status classification depends only on the
status cell, never on the comment.  In the regex/soup detail parsers a
row matching neither `Kommer` nor `Kommer inte` is `comment_only` exactly
when the status text contains `Endast kommentar` and `no_response`
otherwise, whatever the comment; in `_parse_activity_info` a row without
the colored `Ja!`/`Nej!` markers is always `NoReply`, whatever the
comment. -/
theorem C3_status_only_classification :
    (∀ (acc : List Client.Participant × Nat × Nat × Nat)
        (name st c ts : String),
      strHasSub st "Kommer" = false → strHasSub st "Kommer inte" = false →
      strHasSub st "Endast kommentar" = false →
      Client.detailRowClassify acc name st c ts
        = (acc.1 ++ [⟨name, "no_response", c, ts, 0⟩],
           acc.2.1, acc.2.2.1, acc.2.2.2 + 1)) ∧
    (∀ (acc : List Client.Participant × Nat × Nat × Nat)
        (name st c ts : String),
      strHasSub st "Kommer" = false → strHasSub st "Kommer inte" = false →
      strHasSub st "Endast kommentar" = true →
      Client.detailRowClassify acc name st c ts
        = (acc.1 ++ [⟨name, "comment_only", c, ts, 0⟩],
           acc.2.1, acc.2.2.1 + 1, acc.2.2.2)) ∧
    (∀ (row : String) (part : BokatLib.LibParticipant),
      strHasSub row BokatLib.jaMarker = false →
      strHasSub row BokatLib.nejMarker = false →
      BokatLib.parse_info_row row = some part → part.status = "NoReply") := by
  refine ⟨?_, ?_, ?_⟩
  · intro acc name st c ts h1 h2 h3
    obtain ⟨ps, a, na, nr⟩ := acc
    simp [Client.detailRowClassify, h1, h2, h3]
  · intro acc name st c ts h1 h2 h3
    obtain ⟨ps, a, na, nr⟩ := acc
    simp [Client.detailRowClassify, h1, h2, h3]
  · intro row part hja hnej h
    have hs : BokatLib.infoRowStatus row = "NoReply" := by
      simp [BokatLib.infoRowStatus, hja, hnej]
    simp only [BokatLib.parse_info_row] at h
    split at h
    · exact absurd h (by simp)
    · split at h
      · exact absurd h (by simp)
      · split at h
        · exact absurd h (by simp)
        · injection h with h2
          subst h2
          exact hs

theorem C3_status_only_classification_witness :
    Client.detailRowClassify ([], 0, 0, 0) "Anna" "" "Hejsan" "2024"
      = ([⟨"Anna", "no_response", "Hejsan", "2024", 0⟩], 0, 0, 1) ∧
    Client.detailRowClassify ([], 0, 0, 0) "Bo" "Endast kommentar" "Hej"
        "2024"
      = ([⟨"Bo", "comment_only", "Hej", "2024", 0⟩], 0, 1, 0) ∧
    (⟨"Anna", "2024-01-02", "NoReply", "Hejsan", 0⟩ :
        BokatLib.LibParticipant).status = "NoReply" :=
  ⟨C3_status_only_classification.1 ([], 0, 0, 0) "Anna" "" "Hejsan" "2024"
      (by decide) (by decide) (by decide),
   C3_status_only_classification.2.1 ([], 0, 0, 0) "Bo" "Endast kommentar"
      "Hej" "2024" (by decide) (by decide) (by decide),
   C3_status_only_classification.2.2 c3row
      ⟨"Anna", "2024-01-02", "NoReply", "Hejsan", 0⟩
      (by decide) (by decide) (by decide)⟩

/-- Claim C6: a reply with attendance `no` always posts the guest-count
form field as the string `"0"`, whatever the caller passed for `guests`:
in `submit_response` the `guests` key of the posted form data (hidden
fields merged) is `"0"`, and in `reply_to_activity` the `nrOfGuests` key
of the `no` data dict is `"0"`. -/
theorem C6_no_reply_guest_count_zero (event_id user_id comment : String)
    (guests : Int) (hidden : List (String × String)) :
    (Client.merge_hidden
        (Client.build_form_data event_id user_id "no" guests comment)
        hidden).lookup "guests" = some "0" ∧
    (∃ d, BokatLib.reply_form_data "no" comment guests = some d ∧
      d.lookup "nrOfGuests" = some "0") := by
  constructor
  · have hfd : (Client.build_form_data event_id user_id "no" guests
        comment).lookup "guests" = some "0" := by
      simp [Client.build_form_data, List.lookup]
    rw [merge_hidden_lookup hidden _ "guests" (by rw [hfd]; rfl), hfd]
  · refine ⟨(if comment ≠ "" then [("comment", comment)] else [])
      ++ [("decline", "Tacka Nej"), ("currentStatus", "null"),
          ("nrOfGuests", "0")], ?_, ?_⟩
    · simp [BokatLib.reply_form_data]
    · by_cases hc : comment = "" <;> simp [hc, List.lookup]

theorem lookup_none_of_keys (d : List (String × String))
    (names : List String) (hk : ∀ kv ∈ d, kv.1 ∈ names) (n : String)
    (hn : n ∉ names) : d.lookup n = none := by
  cases hd : d.lookup n with
  | none => rfl
  | some v => exact absurd (hk (n, v) (lookup_mem hd)) hn

theorem dictSet_notMem (d : List (String × String)) (n g : String)
    (h : d.lookup n = none) : dictSet d n g = d ++ [(n, g)] := by
  induction d with
  | nil => rfl
  | cons hd tl ih =>
      obtain ⟨k2, v2⟩ := hd
      by_cases hk : n = k2
      · subst hk
        rw [lookup_cons_eq] at h
        exact absurd h (by simp)
      · rw [lookup_cons_ne _ _ _ _ hk] at h
        have hb : (k2 == n) = false := beq_eq_false_iff_ne.mpr (Ne.symm hk)
        simp only [dictSet, hb]
        rw [ih h]
        rfl

theorem lookup_append_single_eq (d : List (String × String)) (n g : String)
    (h : d.lookup n = none) : (d ++ [(n, g)]).lookup n = some g := by
  rw [lookup_append, h, lookup_cons_eq]

theorem lookup_append_single_ne (d : List (String × String)) (n g m : String)
    (h : m ≠ n) : (d ++ [(n, g)]).lookup m = d.lookup m := by
  rw [lookup_append]
  cases hd : d.lookup m with
  | some v => rfl
  | none => rw [lookup_cons_ne _ _ _ _ h]; rfl

theorem nodup_append_singleton {l : List String} {a : String}
    (h : l.Nodup) (ha : a ∉ l) : (l ++ [a]).Nodup := by
  rw [List.nodup_append]
  refine ⟨h, List.nodup_singleton a, ?_⟩
  intro x hx hx2
  rw [List.mem_singleton] at hx2
  subst hx2
  exact ha hx

theorem fpStep_eq (s : BokatLib.FPState) (row : BokatLib.LibRow) :
    BokatLib.fpStep s row =
      match row.aktVal with
      | some (some txt) =>
          if strStrip txt ≠ "" ∧ strStrip txt ∉ s.names then
            { curGroup := match row.gruppVal with
                | some (some t2) => some (strStrip t2)
                | _ => s.curGroup
              curTime := match row.tidVal with
                | some (some t2) => some (strStrip t2)
                | _ => s.curTime
              names := s.names ++ [strStrip txt]
              groups := match (match row.gruppVal with
                  | some (some t2) => some (strStrip t2)
                  | _ => s.curGroup) with
                | some g => if g ≠ "" then dictSet s.groups (strStrip txt) g
                    else s.groups
                | none => s.groups
              times := match (match row.tidVal with
                  | some (some t2) => some (strStrip t2)
                  | _ => s.curTime) with
                | some t => if t ≠ "" then dictSet s.times (strStrip txt) t
                    else s.times
                | none => s.times }
          else
            { curGroup := match row.gruppVal with
                | some (some t2) => some (strStrip t2)
                | _ => s.curGroup
              curTime := match row.tidVal with
                | some (some t2) => some (strStrip t2)
                | _ => s.curTime
              names := s.names, groups := s.groups, times := s.times }
      | _ =>
          { curGroup := match row.gruppVal with
              | some (some t2) => some (strStrip t2)
              | _ => s.curGroup
            curTime := match row.tidVal with
              | some (some t2) => some (strStrip t2)
              | _ => s.curTime
            names := s.names, groups := s.groups, times := s.times } := by
  obtain ⟨cg, ct, ns, gs, ts⟩ := s
  obtain ⟨gv, tv, av⟩ := row
  rcases gv with _ | (_ | gtxt) <;> rcases tv with _ | (_ | ttxt) <;>
    rcases av with _ | (_ | atxt) <;> rfl

theorem specBlocks_cons (g t : Option String) (row : BokatLib.LibRow)
    (rest : List BokatLib.LibRow) :
    BokatLib.specBlocks g t (row :: rest) =
      match row.aktVal with
      | some (some txt) =>
          (strStrip txt,
           (match (match row.gruppVal with
               | some (some t2) => some (strStrip t2)
               | _ => g) with
             | some gg => if gg ≠ "" then some gg else none
             | none => none),
           (match (match row.tidVal with
               | some (some t2) => some (strStrip t2)
               | _ => t) with
             | some tt => if tt ≠ "" then some tt else none
             | none => none)) ::
          BokatLib.specBlocks
            (match row.gruppVal with
              | some (some t2) => some (strStrip t2)
              | _ => g)
            (match row.tidVal with
              | some (some t2) => some (strStrip t2)
              | _ => t) rest
      | _ =>
          BokatLib.specBlocks
            (match row.gruppVal with
              | some (some t2) => some (strStrip t2)
              | _ => g)
            (match row.tidVal with
              | some (some t2) => some (strStrip t2)
              | _ => t) rest := by
  obtain ⟨gv, tv, av⟩ := row
  rcases gv with _ | (_ | gtxt) <;> rcases tv with _ | (_ | ttxt) <;>
    rcases av with _ | (_ | atxt) <;> rfl

theorem dict_update_facts (d : List (String × String))
    (names : List String) (hk : ∀ kv ∈ d, kv.1 ∈ names) (n : String)
    (hn : n ∉ names) (g2 : Option String) :
    ((match g2 with
      | some g => if g ≠ "" then dictSet d n g else d
      | none => d).lookup n
        = (match g2 with
           | some g => if g ≠ "" then some g else none
           | none => none)) ∧
    (∀ m, m ≠ n →
      (match g2 with
       | some g => if g ≠ "" then dictSet d n g else d
       | none => d).lookup m = d.lookup m) ∧
    (∀ kv, kv ∈ ((match g2 with
       | some g => if g ≠ "" then dictSet d n g else d
       | none => d) : List (String × String)) → kv.1 ∈ names ++ [n]) := by
  have hdn : d.lookup n = none := lookup_none_of_keys d names hk n hn
  have base : d.lookup n = none ∧ (∀ m, m ≠ n → d.lookup m = d.lookup m) ∧
      (∀ kv ∈ d, kv.1 ∈ names ++ [n]) :=
    ⟨hdn, fun _ _ => rfl, fun kv hkv => List.mem_append_left _ (hk kv hkv)⟩
  cases g2 with
  | none => exact base
  | some g =>
      dsimp only
      by_cases hge : g ≠ ""
      · refine ⟨?_, ?_, ?_⟩
        · rw [if_pos hge, if_pos hge, dictSet_notMem d n g hdn,
            lookup_append_single_eq d n g hdn]
        · intro m hm
          rw [if_pos hge, dictSet_notMem d n g hdn,
            lookup_append_single_ne d n g m hm]
        · intro kv hkv
          rw [if_pos hge, dictSet_notMem d n g hdn] at hkv
          rcases List.mem_append.mp hkv with h1 | h1
          · exact List.mem_append_left _ (hk kv h1)
          · rw [List.mem_singleton] at h1
            subst h1
            exact List.mem_append_right _ (List.mem_singleton_self n)
      · rw [if_neg hge, if_neg hge]
        exact base

theorem fp_spec :
    ∀ (rows : List BokatLib.LibRow) (s : BokatLib.FPState),
    (s.names ++ (BokatLib.specBlocks s.curGroup s.curTime rows).map
        (fun b => b.1)).Nodup →
    (∀ b ∈ BokatLib.specBlocks s.curGroup s.curTime rows, b.1 ≠ "") →
    (∀ kv ∈ s.groups, kv.1 ∈ s.names) →
    (∀ kv ∈ s.times, kv.1 ∈ s.names) →
    ((rows.foldl BokatLib.fpStep s).names
        = s.names ++ (BokatLib.specBlocks s.curGroup s.curTime rows).map
            (fun b => b.1)) ∧
    (∀ b ∈ BokatLib.specBlocks s.curGroup s.curTime rows,
        ((rows.foldl BokatLib.fpStep s).groups.lookup b.1 = b.2.1 ∧
         (rows.foldl BokatLib.fpStep s).times.lookup b.1 = b.2.2)) ∧
    (∀ n ∈ s.names,
        ((rows.foldl BokatLib.fpStep s).groups.lookup n = s.groups.lookup n ∧
         (rows.foldl BokatLib.fpStep s).times.lookup n = s.times.lookup n)) := by
  intro rows
  induction rows with
  | nil =>
      intro s hnd hne hgk htk
      refine ⟨by simp [BokatLib.specBlocks], ?_, ?_⟩
      · intro b hb
        simp [BokatLib.specBlocks] at hb
      · intro n _
        exact ⟨rfl, rfl⟩
  | cons row rest ih =>
      intro s hnd hne hgk htk
      rw [specBlocks_cons] at hnd hne
      rw [List.foldl_cons, fpStep_eq, specBlocks_cons]
      generalize hg2 : (match row.gruppVal with
        | some (some t2) => some (strStrip t2)
        | _ => s.curGroup) = g2 at hnd hne ⊢
      generalize ht2 : (match row.tidVal with
        | some (some t2) => some (strStrip t2)
        | _ => s.curTime) = t2 at hnd hne ⊢
      cases hav : row.aktVal with
      | none =>
          rw [hav] at hnd hne
          exact ih ⟨g2, t2, s.names, s.groups, s.times⟩ hnd hne hgk htk
      | some oa =>
          cases oa with
          | none =>
              rw [hav] at hnd hne
              exact ih ⟨g2, t2, s.names, s.groups, s.times⟩ hnd hne hgk htk
          | some txt =>
              rw [hav] at hnd hne
              set n := strStrip txt with hndef
              simp only [List.map_cons] at hnd ⊢
              have hsplit := List.nodup_append.mp hnd
              have hn_not_s : n ∉ s.names := fun hmem =>
                hsplit.2.2 hmem (List.mem_cons_self _ _)
              have hne_head : n ≠ "" :=
                hne _ (List.mem_cons_self _ _)
              rw [if_pos ⟨hne_head, hn_not_s⟩]
              obtain ⟨ga, gb, gc⟩ :=
                dict_update_facts s.groups s.names hgk n hn_not_s g2
              obtain ⟨ta, tb, tc⟩ :=
                dict_update_facts s.times s.names htk n hn_not_s t2
              have hnd2 : ((s.names ++ [n])
                  ++ (BokatLib.specBlocks g2 t2 rest).map (fun b => b.1)).Nodup := by
                rw [List.append_assoc, List.singleton_append]
                exact hnd
              have hne2 : ∀ b ∈ BokatLib.specBlocks g2 t2 rest, b.1 ≠ "" :=
                fun b hb => hne b (List.mem_cons_of_mem _ hb)
              obtain ⟨ihn, ihb, ihs⟩ :=
                ih { curGroup := g2, curTime := t2, names := s.names ++ [n],
                     groups := match g2 with
                       | some g => if g ≠ "" then dictSet s.groups n g
                           else s.groups
                       | none => s.groups,
                     times := match t2 with
                       | some t => if t ≠ "" then dictSet s.times n t
                           else s.times
                       | none => s.times }
                  hnd2 hne2 gc tc
              refine ⟨?_, ?_, ?_⟩
              · rw [ihn, List.append_assoc, List.singleton_append]
              · intro b hb
                rcases List.mem_cons.mp hb with hb1 | hb2
                · subst hb1
                  have hmem : n ∈ s.names ++ [n] :=
                    List.mem_append_right _ (List.mem_singleton_self n)
                  have hfin := ihs n hmem
                  exact ⟨hfin.1.trans ga, hfin.2.trans ta⟩
                · exact ihb b hb2
              · intro m hm
                have hmem : m ∈ s.names ++ [n] := List.mem_append_left _ hm
                have hne_mn : m ≠ n := fun he => hn_not_s (he ▸ hm)
                have hfin := ihs m hmem
                exact ⟨hfin.1.trans (gb m hne_mn),
                  hfin.2.trans (tb m hne_mn)⟩

theorem fpStep_nodup (s : BokatLib.FPState) (row : BokatLib.LibRow)
    (h : s.names.Nodup) : (BokatLib.fpStep s row).names.Nodup := by
  rw [fpStep_eq]
  rcases hav : row.aktVal with _ | (_ | atxt)
  · exact h
  · exact h
  · by_cases hcond : strStrip atxt ≠ "" ∧ strStrip atxt ∉ s.names
    · have : (BokatLib.FPState.names
          { curGroup := match row.gruppVal with
              | some (some t2) => some (strStrip t2)
              | _ => s.curGroup
            curTime := match row.tidVal with
              | some (some t2) => some (strStrip t2)
              | _ => s.curTime
            names := s.names ++ [strStrip atxt]
            groups := match (match row.gruppVal with
                | some (some t2) => some (strStrip t2)
                | _ => s.curGroup) with
              | some g => if g ≠ "" then dictSet s.groups (strStrip atxt) g
                  else s.groups
              | none => s.groups
            times := match (match row.tidVal with
                | some (some t2) => some (strStrip t2)
                | _ => s.curTime) with
              | some t => if t ≠ "" then dictSet s.times (strStrip atxt) t
                  else s.times
              | none => s.times }).Nodup :=
        nodup_append_singleton h hcond.2
      simpa [if_pos hcond] using this
    · simpa [if_neg hcond] using h

theorem matchActs_map_name :
    ∀ (ns : List String) (ls : List BokatLib.StatLink)
      (g t : List (String × String)),
    (BokatLib.matchActs ns ls g t).map (fun a => a.name)
      = ns.take ls.length := by
  intro ns
  induction ns with
  | nil => intro ls g t; cases ls <;> simp [BokatLib.matchActs]
  | cons n ns ih =>
      intro ls g t
      cases ls with
      | nil => simp [BokatLib.matchActs]
      | cons l ls2 => simp [BokatLib.matchActs, ih, List.take_succ_cons]

theorem matchActs_eq_zip :
    ∀ (bs : List (String × Option String × Option String))
      (ls : List BokatLib.StatLink) (g t : List (String × String)),
    (∀ b ∈ bs, g.lookup b.1 = b.2.1 ∧ t.lookup b.1 = b.2.2) →
    BokatLib.matchActs (bs.map (fun b => b.1)) ls g t
      = List.zipWith (fun b l =>
          ({ name := b.1, group := (b.2.1).getD "Unknown Group",
             url := l.url, eventId := l.eventId, userId := l.userId,
             time := b.2.2 } : BokatLib.LibActivity)) bs ls := by
  intro bs
  induction bs with
  | nil => intro ls g t _; cases ls <;> rfl
  | cons b bs ih =>
      intro ls g t h
      cases ls with
      | nil => rfl
      | cons l ls2 =>
          have hb := h b (List.mem_cons_self _ _)
          simp only [List.map_cons, BokatLib.matchActs, List.zipWith_cons_cons]
          rw [hb.1, hb.2,
            ih ls2 g t (fun b2 hb2 => h b2 (List.mem_cons_of_mem _ hb2))]

/-- Claim C9: the activities returned by the `bokat_se_lib` listing
extraction always carry pairwise distinct names (the first pass skips a
label block whose stripped name was already seen); on the concrete page
`c4rows` two distinct blocks share the name `Match`, so of its three
blocks only two activities come back and the later `Träning` block is
paired with the second link instead of its own third link. -/
theorem C9_listing_names_nodup :
    (∀ (rows : List BokatLib.LibRow) (hrefs : List String),
      ((BokatLib.parse_activities rows hrefs).map (fun a => a.name)).Nodup) ∧
    (BokatLib.specBlocks none none c4rows).map (fun b => b.1)
      = ["Match", "Match", "Träning"] ∧
    (BokatLib.parse_activities c4rows c4hrefs).map (fun a => a.name)
      = ["Match", "Träning"] ∧
    (BokatLib.parse_activities c4rows c4hrefs).map (fun a => a.url)
      = ["https://www.bokat.se/stat.jsp?eventId=11&userId=21",
         "https://www.bokat.se/stat.jsp?eventId=12&userId=22"] := by
  refine ⟨?_, by decide, by decide, by decide⟩
  intro rows hrefs
  unfold BokatLib.parse_activities
  dsimp only
  rw [matchActs_map_name]
  have hnodup : ((rows.foldl BokatLib.fpStep
      ⟨none, none, [], [], []⟩).names).Nodup :=
    foldl_inv (fun st : BokatLib.FPState => st.names.Nodup) BokatLib.fpStep
      (fun a b hh => fpStep_nodup a b hh) rows _ List.nodup_nil
  exact hnodup.sublist (List.take_sublist _ _)

/-- Claim C4, counterexample: the page `c4rows` is a well-formed listing
page with three activity label blocks and three detail links in matching
document order (the spec allows equal names in different groups), yet the
extraction returns two activities, not three. -/
theorem C4_counterexample :
    (BokatLib.specBlocks none none c4rows).length = 3 ∧
    c4hrefs.length = 3 ∧
    (BokatLib.parse_activities c4rows c4hrefs).length = 2 := by
  refine ⟨by decide, by decide, by decide⟩

/-- Claim C4, amended: for every listing page whose activity label blocks
carry nonempty, pairwise distinct (stripped) names, the extraction equals
the spec-side positional zip: the i-th block name, its nearest preceding
group, and the i-th link url/eventId/userId; in particular, with N such
blocks and N links the extraction returns exactly N activities. -/
theorem C4_distinct_names_pairing (rows : List BokatLib.LibRow)
    (hrefs : List String)
    (hnd : ((BokatLib.specBlocks none none rows).map (fun b => b.1)).Nodup)
    (hne : ∀ b ∈ BokatLib.specBlocks none none rows, b.1 ≠ "") :
    BokatLib.parse_activities rows hrefs = BokatLib.specListing rows hrefs ∧
    (hrefs.length = (BokatLib.specBlocks none none rows).length →
      (BokatLib.parse_activities rows hrefs).length = hrefs.length) := by
  have main := fp_spec rows ⟨none, none, [], [], []⟩ (by simpa using hnd)
    hne (by intro kv h; simp at h) (by intro kv h; simp at h)
  have heq : BokatLib.parse_activities rows hrefs
      = BokatLib.specListing rows hrefs := by
    unfold BokatLib.parse_activities BokatLib.specListing
    dsimp only
    rw [main.1, List.nil_append]
    exact matchActs_eq_zip (BokatLib.specBlocks none none rows)
      (hrefs.map BokatLib.parseStatLink) _ _ main.2.1
  refine ⟨heq, fun hlen => ?_⟩
  rw [heq]
  unfold BokatLib.specListing
  simp only [List.length_zipWith, List.length_map]
  omega

theorem C4_distinct_names_pairing_witness :
    BokatLib.parse_activities c4wrows c4hrefs
      = BokatLib.specListing c4wrows c4hrefs ∧
    (c4hrefs.length = (BokatLib.specBlocks none none c4wrows).length →
      (BokatLib.parse_activities c4wrows c4hrefs).length
        = c4hrefs.length) :=
  C4_distinct_names_pairing c4wrows c4hrefs (by decide) (by decide)
